import Mathlib

/-!
Verification of the toptle terminal proxy (src/toptle.py): the title
escape-sequence rewriter, the stats sampler and its proactive title pushes,
terminal-size fallback, command classification, relay-loop behaviour, and
exit-code / cleanup paths.  Byte streams are modelled as lists of naturals
below 256, Python text as lists of Unicode scalar values, and wall-clock
times as rationals.
-/

set_option maxHeartbeats 1000000
set_option maxRecDepth 8000

namespace Toptle

/-- A valid Unicode scalar value: below 0x110000 and not a surrogate. -/
def ValidScalar (v : Nat) : Prop :=
  v < 1114112 ∧ (v < 55296 ∨ 57344 ≤ v)

instance (v : Nat) : Decidable (ValidScalar v) := by
  unfold ValidScalar; infer_instance

/-- UTF-8 encoding of one code point, as Python str.encode with
replacement: a lone surrogate encodes as a question mark (0x3F), every
other scalar gets its standard UTF-8 byte sequence. -/
def utf8EncodeScalar (v : Nat) : List Nat :=
  if v < 128 then [v]
  else if v < 2048 then [192 + v / 64, 128 + v % 64]
  else if 55296 ≤ v ∧ v < 57344 then [63]
  else if v < 65536 then [224 + v / 4096, 128 + v / 64 % 64, 128 + v % 64]
  else [240 + v / 262144, 128 + v / 4096 % 64, 128 + v / 64 % 64, 128 + v % 64]

/-- UTF-8 encoding of a Python string (list of code points). -/
def utf8Encode : List Nat → List Nat
  | [] => []
  | v :: vs => utf8EncodeScalar v ++ utf8Encode vs

/-- Is the byte a UTF-8 continuation byte (0x80..0xBF)? -/
def isCont (b : Nat) : Bool := 128 ≤ b && b ≤ 191

/-- Allowed second byte after a three-byte leader, as CPython checks it:
leader 0xE0 forbids overlong encodings, leader 0xED forbids surrogates. -/
def cont3first (b b1 : Nat) : Bool :=
  if b = 224 then 160 ≤ b1 && b1 ≤ 191
  else if b = 237 then 128 ≤ b1 && b1 ≤ 159
  else isCont b1

/-- Allowed second byte after a four-byte leader, as CPython checks it:
leader 0xF0 forbids overlong encodings, leader 0xF4 forbids code points
above 0x10FFFF. -/
def cont4first (b b1 : Nat) : Bool :=
  if b = 240 then 144 ≤ b1 && b1 ≤ 191
  else if b = 244 then 128 ≤ b1 && b1 ≤ 143
  else isCont b1

/-- The Unicode replacement character U+FFFD. -/
def repl : Nat := 65533

/-- UTF-8 decoding with replacement, as Python bytes.decode with
replacement: each maximal subpart of an ill-formed subsequence is replaced
by one U+FFFD, and decoding resumes at the first byte that could not
extend it. -/
def utf8Decode : List Nat → List Nat
  | [] => []
  | b :: rest =>
    if b < 128 then b :: utf8Decode rest
    else if 194 ≤ b ∧ b ≤ 223 then
      match rest with
      | [] => [repl]
      | b1 :: r1 =>
        if isCont b1 then ((b - 192) * 64 + (b1 - 128)) :: utf8Decode r1
        else repl :: utf8Decode (b1 :: r1)
    else if 224 ≤ b ∧ b ≤ 239 then
      match rest with
      | [] => [repl]
      | b1 :: r1 =>
        if cont3first b b1 then
          match r1 with
          | [] => [repl]
          | b2 :: r2 =>
            if isCont b2 then
              ((b - 224) * 4096 + (b1 - 128) * 64 + (b2 - 128)) :: utf8Decode r2
            else repl :: utf8Decode (b2 :: r2)
        else repl :: utf8Decode (b1 :: r1)
    else if 240 ≤ b ∧ b ≤ 244 then
      match rest with
      | [] => [repl]
      | b1 :: r1 =>
        if cont4first b b1 then
          match r1 with
          | [] => [repl]
          | b2 :: r2 =>
            if isCont b2 then
              match r2 with
              | [] => [repl]
              | b3 :: r3 =>
                if isCont b3 then
                  ((b - 240) * 262144 + (b1 - 128) * 4096 + (b2 - 128) * 64 +
                    (b3 - 128)) :: utf8Decode r3
                else repl :: utf8Decode (b3 :: r3)
            else repl :: utf8Decode (b2 :: r2)
        else repl :: utf8Decode (b1 :: r1)
    else repl :: utf8Decode rest

example : utf8Decode (utf8Encode [72, 233, 20320, 128512]) = [72, 233, 20320, 128512] := by
  decide

example : utf8Decode [226, 128, 65] = [repl, 65] := by decide

example : utf8Decode [237, 160, 128] = [repl, repl, repl] := by decide

theorem utf8Decode_encodeScalar (v : Nat) (hv : ValidScalar v) (rest : List Nat) :
    utf8Decode (utf8EncodeScalar v ++ rest) = v :: utf8Decode rest := by
  obtain ⟨hlt, hsur⟩ := hv
  by_cases h1 : v < 128
  · have he : utf8EncodeScalar v = [v] := by simp [utf8EncodeScalar, h1]
    rw [he, List.cons_append, List.nil_append, utf8Decode.eq_def]
    simp [h1]
  · by_cases h2 : v < 2048
    · have he : utf8EncodeScalar v = [192 + v / 64, 128 + v % 64] := by
        simp [utf8EncodeScalar, h1, h2]
      have e1 : ¬ (192 + v / 64 < 128) := by omega
      have e2 : 194 ≤ 192 + v / 64 ∧ 192 + v / 64 ≤ 223 := by omega
      have e3 : isCont (128 + v % 64) = true := by
        simp only [isCont, Bool.and_eq_true, decide_eq_true_eq]; omega
      rw [he]
      simp only [List.cons_append, List.nil_append]
      rw [utf8Decode.eq_def]
      simp only [if_neg e1, if_pos e2, e3, if_pos, List.cons.injEq]
      exact ⟨by omega, trivial⟩
    · by_cases h3 : v < 65536
      · have hs : ¬ (55296 ≤ v ∧ v < 57344) := by omega
        have he : utf8EncodeScalar v = [224 + v / 4096, 128 + v / 64 % 64, 128 + v % 64] := by
          simp [utf8EncodeScalar, h1, h2, hs, h3]
        have e1 : ¬ (224 + v / 4096 < 128) := by omega
        have e2 : ¬ (194 ≤ 224 + v / 4096 ∧ 224 + v / 4096 ≤ 223) := by omega
        have e3 : 224 ≤ 224 + v / 4096 ∧ 224 + v / 4096 ≤ 239 := by omega
        have e4 : cont3first (224 + v / 4096) (128 + v / 64 % 64) = true := by
          unfold cont3first isCont
          split_ifs with hA hB <;>
            simp only [Bool.and_eq_true, decide_eq_true_eq] <;> omega
        have e5 : isCont (128 + v % 64) = true := by
          simp only [isCont, Bool.and_eq_true, decide_eq_true_eq]; omega
        rw [he]
        simp only [List.cons_append, List.nil_append]
        rw [utf8Decode.eq_def]
        simp only [if_neg e1, if_neg e2, if_pos e3, e4, e5, if_pos, List.cons.injEq]
        exact ⟨by omega, trivial⟩
      · have hs : ¬ (55296 ≤ v ∧ v < 57344) := by omega
        have he : utf8EncodeScalar v =
            [240 + v / 262144, 128 + v / 4096 % 64, 128 + v / 64 % 64, 128 + v % 64] := by
          simp [utf8EncodeScalar, h1, h2, hs, h3]
        have e1 : ¬ (240 + v / 262144 < 128) := by omega
        have e2 : ¬ (194 ≤ 240 + v / 262144 ∧ 240 + v / 262144 ≤ 223) := by omega
        have e3 : ¬ (224 ≤ 240 + v / 262144 ∧ 240 + v / 262144 ≤ 239) := by omega
        have e4 : 240 ≤ 240 + v / 262144 ∧ 240 + v / 262144 ≤ 244 := by omega
        have e5 : cont4first (240 + v / 262144) (128 + v / 4096 % 64) = true := by
          unfold cont4first isCont
          split_ifs with hA hB <;>
            simp only [Bool.and_eq_true, decide_eq_true_eq] <;> omega
        have e6 : isCont (128 + v / 64 % 64) = true := by
          simp only [isCont, Bool.and_eq_true, decide_eq_true_eq]; omega
        have e7 : isCont (128 + v % 64) = true := by
          simp only [isCont, Bool.and_eq_true, decide_eq_true_eq]; omega
        rw [he]
        simp only [List.cons_append, List.nil_append]
        rw [utf8Decode.eq_def]
        simp only [if_neg e1, if_neg e2, if_neg e3, if_pos e4, e5, e6, e7, if_pos,
          List.cons.injEq]
        exact ⟨by omega, trivial⟩

/-- Every scalar produced by the decoder is a valid Unicode scalar value. -/
theorem utf8Decode_valid (bs : List Nat) : ∀ v ∈ utf8Decode bs, ValidScalar v := by
  unfold ValidScalar
  induction bs using utf8Decode.induct <;>
    (rw [utf8Decode.eq_def]
     simp_all only [List.mem_cons, List.mem_singleton, List.not_mem_nil, repl, isCont,
       Bool.and_eq_true, decide_eq_true_eq]
     try intro v hv) <;>
    try (rcases hv with h | h)
  all_goals try omega
  all_goals try solve_by_elim
  all_goals try (cases ‹List.Mem _ ([] : List ℕ)›)
  all_goals (simp only [cont3first, cont4first, isCont] at * <;> split_ifs at * <;>
    simp_all only [Bool.and_eq_true, decide_eq_true_eq] <;> omega)

/-- Decoding a non-empty byte list yields a non-empty string. -/
theorem utf8Decode_ne_nil (bs : List Nat) (h : bs ≠ []) : utf8Decode bs ≠ [] := by
  induction bs using utf8Decode.induct <;>
    (rw [utf8Decode.eq_def]; simp_all) <;> (split_ifs <;> simp_all) <;>
    (repeat' split) <;> simp_all

/-- Any ASCII scalar produced by the decoder occurs literally in the input. -/
theorem utf8Decode_ascii_mem (bs : List Nat) :
    ∀ v ∈ utf8Decode bs, v < 128 → v ∈ bs := by
  induction bs using utf8Decode.induct <;>
    (rw [utf8Decode.eq_def]
     simp_all only [List.mem_cons, List.mem_singleton, List.not_mem_nil, repl, isCont,
       Bool.and_eq_true, decide_eq_true_eq]
     try intro v hv) <;>
    try (rcases hv with h | h)
  all_goals intro hlt
  all_goals try omega
  all_goals try (cases ‹List.Mem _ ([] : List ℕ)›)
  all_goals try (first
    | solve_by_elim [Or.inl, Or.inr]
    | (right; solve_by_elim [Or.inl, Or.inr])
    | (right; right; solve_by_elim [Or.inl, Or.inr])
    | (right; right; right; solve_by_elim [Or.inl, Or.inr]))
  all_goals (simp only [cont3first, cont4first, isCont] at * <;> split_ifs at * <;>
    simp_all only [Bool.and_eq_true, decide_eq_true_eq] <;> omega)

/-- Every byte of an encoded scalar is the scalar itself, a high byte, or the
encoder replacement byte for a lone surrogate. -/
theorem utf8EncodeScalar_mem (v : Nat) :
    ∀ b ∈ utf8EncodeScalar v, b = v ∨ 128 ≤ b ∨ b = 63 := by
  unfold utf8EncodeScalar
  split_ifs <;> simp_all <;> omega

/-- Every byte of an encoded string is one of its scalars, a high byte, or the
encoder replacement byte. -/
theorem utf8Encode_mem (s : List Nat) :
    ∀ b ∈ utf8Encode s, b ∈ s ∨ 128 ≤ b ∨ b = 63 := by
  induction s with
  | nil => simp [utf8Encode]
  | cons v vs ih =>
    intro b hb
    rcases List.mem_append.mp (by simpa [utf8Encode] using hb) with h | h
    · rcases utf8EncodeScalar_mem v b h with h2 | h2 | h2
      · exact Or.inl (by simp [h2])
      · exact Or.inr (Or.inl h2)
      · exact Or.inr (Or.inr h2)
    · rcases ih b h with h2 | h2 | h2
      · exact Or.inl (List.mem_cons_of_mem _ h2)
      · exact Or.inr (Or.inl h2)
      · exact Or.inr (Or.inr h2)

/-- Decoding is a left inverse of encoding on valid scalar strings. -/
theorem utf8Decode_encode (s : List Nat) (h : ∀ v ∈ s, ValidScalar v) :
    utf8Decode (utf8Encode s) = s := by
  induction s with
  | nil => rfl
  | cons v vs ih =>
    have hv := h v (List.mem_cons_self v vs)
    have : utf8Decode (utf8EncodeScalar v ++ utf8Encode vs) = v :: utf8Decode (utf8Encode vs) :=
      utf8Decode_encodeScalar v hv (utf8Encode vs)
    simpa [utf8Encode, this] using ih fun u hu => h u (List.mem_cons_of_mem v hu)

/-! ## Session state and the title escape rewriter -/

/-- The mutable Toptle session fields (Toptle.init in src/toptle.py) that the
rewriter, the sampler and the relay loop touch.  Python strings are lists of
code points; wall-clock times are rationals. -/
structure TState where
  refresh_interval : Rat
  title_prefix : List Nat
  original_titles : List (List Nat)
  last_stats : List Nat
  running : Bool
  last_title_update : Rat
  last_title_interception : Rat
  last_intercepted_title : List Nat
  default_title : List Nat

/-- The initial field values assigned in Toptle.init. -/
def initState (interval : Rat) (pfx : List Nat) : TState :=
  { refresh_interval := interval
    title_prefix := pfx
    original_titles := []
    last_stats := []
    running := true
    last_title_update := 0
    last_title_interception := 0
    last_intercepted_title := []
    default_title := [] }

/-- One of the five recognized title-sequence shapes (Config.TITLE_PATTERNS):
the OSC code byte after ESC ] and whether the terminator is BEL (true) or
ESC backslash (false). -/
structure TitlePattern where
  code : Nat
  bell : Bool
deriving DecidableEq

/-- Config.TITLE_PATTERNS, in order: OSC 0, OSC 2, OSC 1 bell-terminated,
then OSC 0 and OSC 2 with the ESC backslash terminator.  48, 50 and 49 are
the bytes of the digits 0, 2 and 1. -/
def TITLE_PATTERNS : List TitlePattern :=
  [⟨48, true⟩, ⟨50, true⟩, ⟨49, true⟩, ⟨48, false⟩, ⟨50, false⟩]

/-- A byte allowed in the payload character class of the patterns: anything
except BEL (7) and ESC (27). -/
def payloadByte (b : Nat) : Bool := b != 7 && b != 27

/-- Split off the longest prefix of payload bytes: the greedy match of the
payload character class. -/
def takePayload : List Nat → List Nat × List Nat
  | [] => ([], [])
  | b :: rest =>
    if payloadByte b then
      ((b :: (takePayload rest).1), (takePayload rest).2)
    else ([], b :: rest)

/-- Attempt to match one title pattern at the head of the stream; on success
return the captured payload and the bytes after the terminator.  The shape
is ESC ] code ; payload terminator, the payload being the longest run of
bytes other than BEL and ESC.  93, 59 and 92 are the bytes of the right
bracket, the semicolon and the backslash. -/
def matchTitleSeq (pat : TitlePattern) : List Nat → Option (List Nat × List Nat)
  | 27 :: 93 :: c :: 59 :: rest =>
    if c = pat.code then
      let pr := takePayload rest
      let term := if pat.bell then [7] else [27, 92]
      if pr.2.take term.length = term then some (pr.1, pr.2.drop term.length)
      else none
    else none
  | _ => none

theorem takePayload_append (s : List Nat) :
    (takePayload s).1 ++ (takePayload s).2 = s := by
  induction s with
  | nil => rfl
  | cons b rest ih =>
    by_cases h : payloadByte b = true
    · simp [takePayload, h, ih]
    · simp [takePayload, h]

theorem takePayload_snd_length (s : List Nat) :
    (takePayload s).2.length ≤ s.length := by
  have := congrArg List.length (takePayload_append s)
  simp only [List.length_append] at this
  omega

theorem matchTitleSeq_rest_length (pat : TitlePattern) (s p r : List Nat)
    (h : matchTitleSeq pat s = some (p, r)) : r.length + 5 ≤ s.length := by
  match s, h with
  | 27 :: 93 :: c :: 59 :: rest, h =>
    rw [matchTitleSeq] at h
    by_cases hc : c = pat.code
    · simp only [if_pos hc] at h
      have hlen := takePayload_snd_length rest
      set tp := (takePayload rest).2 with htp
      set term : List Nat := if pat.bell then [7] else [27, 92] with hterm
      have hterm_len : 1 ≤ term.length := by
        rw [hterm]; by_cases hb : pat.bell <;> simp [hb]
      by_cases ht : tp.take term.length = term
      · simp only [if_pos ht, Option.some.injEq, Prod.mk.injEq] at h
        have h1 : (tp.take term.length).length = term.length := by rw [ht]
        simp only [List.length_take] at h1
        have h3 : r.length = tp.length - term.length := by
          rw [← h.2]; simp [List.length_drop]
        simp only [List.length_cons]
        omega
      · simp [if_neg ht] at h
    · simp [if_neg hc] at h

/-- The separator put between the original title and the stats text
(the space, vertical bar, space of the Python f-string). -/
def sep : List Nat := [32, 124, 32]

/-- Toptle.modify_title_sequence: decode the captured payload with
replacement, record it as the last intercepted title (appending to
original_titles when new and non-empty), stamp the interception time, build
the new title (original plus separator plus stats, or stats alone when the
original is empty) and rebuild the sequence from the original four prefix
bytes, the UTF-8 encoding of the new title and the original terminator. -/
def modify_title_sequence (st : TState) (now : Rat) (pat : TitlePattern)
    (payload : List Nat) (stats_text : List Nat) : List Nat × TState :=
  let original_title := utf8Decode payload
  let st1 : TState :=
    { st with
      original_titles :=
        if original_title ≠ [] ∧ original_title ∉ st.original_titles then
          st.original_titles ++ [original_title]
        else st.original_titles
      last_intercepted_title := original_title
      last_title_interception := now }
  let new_title :=
    if original_title ≠ [] then original_title ++ sep ++ stats_text else stats_text
  let terminator := if pat.bell then [7] else [27, 92]
  ([27, 93, pat.code, 59] ++ utf8Encode new_title ++ terminator, st1)

/-- re.sub of one title pattern over a stream, with modify_title_sequence as
the substitution function: scan left to right, replace each non-overlapping
match and thread the session state through the replacements. -/
def subTitlePattern (pat : TitlePattern) (now : Rat) (stats_text : List Nat) :
    TState → List Nat → List Nat × TState
  | st, [] => ([], st)
  | st, b :: rest =>
    match h : matchTitleSeq pat (b :: rest) with
    | some pr =>
      let ms := modify_title_sequence st now pat pr.1 stats_text
      let ts := subTitlePattern pat now stats_text ms.2 pr.2
      (ms.1 ++ ts.1, ts.2)
    | none =>
      let ts := subTitlePattern pat now stats_text st rest
      (b :: ts.1, ts.2)
termination_by _ s => s.length
decreasing_by
  · have := matchTitleSeq_rest_length pat (b :: rest) pr.1 pr.2 (by rw [h])
    simp only [List.length_cons] at this ⊢
    omega
  · simp only [List.length_cons]
    omega

/-- Toptle.process_output: apply the five patterns in order, each one a full
re.sub pass over the result of the previous pass. -/
def process_output (st : TState) (now : Rat) (data : List Nat)
    (stats_text : List Nat) : List Nat × TState :=
  TITLE_PATTERNS.foldl
    (fun acc pat => subTitlePattern pat now stats_text acc.2 acc.1) (data, st)

/-! ## Stats sampler and proactive title pushes -/

/-- Config.TITLE_UPDATE_INTERVAL: minimum time between proactive pushes. -/
def TITLE_UPDATE_INTERVAL : Rat := 1/2

/-- Config.TITLE_SUPPRESSION_DURATION: window after an interception during
which proactive pushes are suppressed. -/
def TITLE_SUPPRESSION_DURATION : Rat := 1

/-- Config.TERMINAL_RESET_SEQUENCE: ESC ] 0 ; Terminal BEL, as code points. -/
def TERMINAL_RESET_SEQUENCE : List Nat :=
  [27, 93, 48, 59, 84, 101, 114, 109, 105, 110, 97, 108, 7]

/-- Toptle.send_proactive_title_update at wall-clock time now: the title
sequence written to the real terminal (none when the push is skipped
because stats are empty, an interception is recent, or the last push is too
recent) together with the updated state.  The sequence follows
Config.TITLE_SEQUENCE_FORMAT: ESC ] 0 ; content BEL. -/
def send_proactive_title_update (st : TState) (now : Rat) :
    Option (List Nat) × TState :=
  if st.last_stats ≠ [] then
    if now - st.last_title_interception < TITLE_SUPPRESSION_DURATION then (none, st)
    else if TITLE_UPDATE_INTERVAL ≤ now - st.last_title_update then
      let title_content :=
        if st.last_intercepted_title ≠ [] then
          st.last_intercepted_title ++ sep ++ st.last_stats
        else if st.default_title ≠ [] then st.default_title ++ sep ++ st.last_stats
        else st.last_stats
      (some ([27, 93, 48, 59] ++ title_content ++ [7]),
        { st with last_title_update := now })
    else (none, st)
  else (none, st)

/-- One sampling tick of the external process-tree stats provider: the
answer of the root is_running query, the recursive children listing, and
the per-process cpu percent and rss bytes; none models a raised
NoSuchProcess or AccessDenied. -/
structure ProviderTick where
  isRunningQ : Option Bool
  childrenQ : Option (List Nat)
  perProc : Nat → Option (Rat × Rat)

/-- The aggregate returned by Toptle.get_process_tree_stats. -/
structure TreeStats where
  cpu_percent : Rat
  memory_mb : Rat
  process_count : Nat
deriving DecidableEq

/-- Config.BYTES_TO_MB. -/
def BYTES_TO_MB : Rat := 1048576

/-- Toptle.get_process_tree_stats: list the root and all recursive children,
sum cpu percent and rss (in MB) over them, skipping any process whose query
raises; a raised listing of the children returns the zero aggregate.  The
process count is the length of the enumerated list, skips included. -/
def get_process_tree_stats (tick : ProviderTick) (root : Nat) : TreeStats :=
  match tick.childrenQ with
  | none => ⟨0, 0, 0⟩
  | some kids =>
    let procs := root :: kids
    let tot := procs.foldl
      (fun (acc : Rat × Rat) p =>
        match tick.perProc p with
        | none => acc
        | some cm => (acc.1 + cm.1, acc.2 + cm.2 / BYTES_TO_MB)) (0, 0)
    ⟨tot.1, tot.2, procs.length⟩

/-- Decimal digit code points of a natural number, most significant first. -/
def natDigits (n : Nat) : List Nat := (Nat.toDigits 10 n).map Char.toNat

/-- Round a rational to the nearest integer, ties to even. -/
def roundHalfEven (x : Rat) : Int :=
  let n := x.floor
  if x - n < 1/2 then n
  else if (1 : Rat)/2 < x - n then n + 1
  else if n % 2 = 0 then n else n + 1

/-- One-decimal fixed-point formatting of the non-negative rationals the
sampler produces, as Python percent-.1f formatting. -/
def fmt1 (x : Rat) : List Nat :=
  let t := (roundHalfEven (x * 10)).toNat
  natDigits (t / 10) ++ [46] ++ natDigits (t % 10)

/-- Toptle.format_stats: prefix, space, cpu, percent CPU comma space,
memory, MB RAM. -/
def format_stats (st : TState) (stats : TreeStats) : List Nat :=
  st.title_prefix ++ [32] ++ fmt1 stats.cpu_percent ++ [37, 32, 67, 80, 85, 44, 32] ++
    fmt1 stats.memory_mb ++ [77, 66, 32, 82, 65, 77]

/-- One iteration of the Toptle.stats_updater loop at time now: the updated
state, whether the loop continues to the next tick, and the proactive title
written, if any.  A raised root query or a root that is no longer running
breaks the loop; otherwise the aggregate is computed, formatted and stored,
and a proactive push is attempted. -/
def stats_updater_tick (st : TState) (tick : ProviderTick) (root : Nat)
    (now : Rat) : TState × Bool × Option (List Nat) :=
  if st.running then
    match tick.isRunningQ with
    | none => (st, false, none)
    | some false => (st, false, none)
    | some true =>
      let stats := get_process_tree_stats tick root
      let st1 := { st with last_stats := format_stats st stats }
      let os := send_proactive_title_update st1 now
      (os.2, true, os.1)
  else (st, false, none)

/-! ## C1: the rewriter preserves prefix and terminator and appends stats -/

theorem utf8Decode_nil_iff (payload : List Nat) :
    utf8Decode payload = [] ↔ payload = [] := by
  constructor
  · intro h
    by_contra hne2
    exact utf8Decode_ne_nil payload hne2 h
  · intro h
    simp [h, utf8Decode]

/-- C1: for any session state, any time, any of the five recognized
escape-sequence shapes and any payload free of BEL and ESC, rewriting with
a non-empty stats string free of BEL and ESC yields exactly the original
4-byte prefix ESC ] code ; followed by a payload region free of BEL and
ESC followed by the original terminator, and that region decodes to the
original decoded payload, the separator and the stats when the original
payload was non-empty, and to the stats alone when it was empty. -/
theorem title_rewrite_shape (st : TState) (now : Rat) (pat : TitlePattern)
    (payload stats_text : List Nat)
    (hpay : ∀ b ∈ payload, b ≠ 7 ∧ b ≠ 27)
    (hne : stats_text ≠ [])
    (hstats : ∀ v ∈ stats_text, ValidScalar v ∧ v ≠ 7 ∧ v ≠ 27) :
    ∃ newPayload : List Nat,
      (modify_title_sequence st now pat payload stats_text).1 =
        [27, 93, pat.code, 59] ++ newPayload ++ (if pat.bell then [7] else [27, 92]) ∧
      (∀ b ∈ newPayload, b ≠ 7 ∧ b ≠ 27) ∧
      utf8Decode newPayload =
        (if payload = [] then stats_text
         else utf8Decode payload ++ sep ++ stats_text) := by
  set nt := if payload = [] then stats_text else utf8Decode payload ++ sep ++ stats_text
    with hnt
  have hnew : (if utf8Decode payload ≠ [] then utf8Decode payload ++ sep ++ stats_text
      else stats_text) = nt := by
    rw [hnt]
    by_cases hp : payload = []
    · simp [hp, utf8Decode]
    · have hd : utf8Decode payload ≠ [] := utf8Decode_ne_nil payload hp
      simp [hp, hd]
  have hvalid : ∀ v ∈ nt, ValidScalar v := by
    intro v hv
    rw [hnt] at hv
    by_cases hp : payload = []
    · rw [if_pos hp] at hv
      exact (hstats v hv).1
    · rw [if_neg hp] at hv
      rcases List.mem_append.mp hv with h | h
      · rcases List.mem_append.mp h with h | h
        · exact utf8Decode_valid payload v h
        · simp only [sep, List.mem_cons, List.not_mem_nil, or_false] at h
          rcases h with h | h | h <;> subst h <;> decide
      · exact (hstats v h).1
  have hctrl : ∀ b ∈ utf8Encode nt, b ≠ 7 ∧ b ≠ 27 := by
    intro b hb
    rcases utf8Encode_mem nt b hb with h | h | h
    · rw [hnt] at h
      by_cases hp : payload = []
      · rw [if_pos hp] at h
        exact (hstats b h).2
      · rw [if_neg hp] at h
        rcases List.mem_append.mp h with h | h
        · rcases List.mem_append.mp h with h | h
          · constructor
            · intro hb7
              subst hb7
              exact (hpay 7 (utf8Decode_ascii_mem payload 7 h (by omega))).1 rfl
            · intro hb27
              subst hb27
              exact (hpay 27 (utf8Decode_ascii_mem payload 27 h (by omega))).2 rfl
          · simp only [sep, List.mem_cons, List.not_mem_nil, or_false] at h
            rcases h with h | h | h <;> subst h <;> decide
        · exact (hstats b h).2
    · exact ⟨by omega, by omega⟩
    · subst h
      decide
  refine ⟨utf8Encode nt, ?_, hctrl, ?_⟩
  · simp only [modify_title_sequence]
    rw [hnew]
  · rw [utf8Decode_encode nt hvalid]

/-- Witness for C1 at a concrete input: payload M, stats s, OSC 0, bell. -/
theorem title_rewrite_shape_witness :
    ∃ newPayload : List Nat,
      (modify_title_sequence (initState 2 []) 0 ⟨48, true⟩ [77] [115]).1 =
        [27, 93, (48 : Nat), 59] ++ newPayload ++
          (if (true : Bool) then [7] else [27, 92]) ∧
      (∀ b ∈ newPayload, b ≠ 7 ∧ b ≠ 27) ∧
      utf8Decode newPayload =
        (if ([77] : List Nat) = [] then [115]
         else utf8Decode [77] ++ sep ++ [115]) :=
  title_rewrite_shape (initState 2 []) 0 ⟨48, true⟩ [77] [115]
    (by decide) (by decide) (by decide)

/-! ## C10: empty payloads still record an interception -/

/-- C10: when the rewriter matches a title sequence with an empty payload it
still records the interception: the last intercepted title is set to the
empty string (discarding any previously intercepted title) and the
interception timestamp is stamped; consequently a later proactive push
outside the suppression window composes its title from the default title
rather than the earlier intercepted one. -/
theorem empty_payload_interception (st : TState) (now later : Rat)
    (pat : TitlePattern) (stats_text : List Nat) :
    ((modify_title_sequence st now pat [] stats_text).2.last_intercepted_title = [] ∧
     (modify_title_sequence st now pat [] stats_text).2.last_title_interception = now) ∧
    (st.last_stats ≠ [] → st.default_title ≠ [] →
     TITLE_SUPPRESSION_DURATION ≤ later - now →
     TITLE_UPDATE_INTERVAL ≤ later - st.last_title_update →
     (send_proactive_title_update
        (modify_title_sequence st now pat [] stats_text).2 later).1 =
       some ([27, 93, 48, 59] ++ (st.default_title ++ sep ++ st.last_stats) ++ [7])) := by
  have hst2 : (modify_title_sequence st now pat [] stats_text).2 =
      { st with last_intercepted_title := []
                last_title_interception := now } := by
    simp [modify_title_sequence, utf8Decode]
  refine ⟨by rw [hst2]; exact ⟨rfl, rfl⟩, ?_⟩
  intro h1 h2 h3 h4
  rw [hst2]
  have hnl : ¬ (later - now < TITLE_SUPPRESSION_DURATION) := not_lt.mpr h3
  simp [send_proactive_title_update, h1, h2, hnl, h4]

/-- Witness for C10 at a concrete session state and times. -/
theorem empty_payload_interception_witness :
    (({ initState 2 [] with
        default_title := [100], last_stats := [99] } : TState).last_stats ≠ [] →
      True) ∧
    ((modify_title_sequence
        { initState 2 [] with default_title := [100], last_stats := [99] }
        5 ⟨48, true⟩ [] [115]).2.last_intercepted_title = [] ∧
     (modify_title_sequence
        { initState 2 [] with default_title := [100], last_stats := [99] }
        5 ⟨48, true⟩ [] [115]).2.last_title_interception = 5) ∧
    (send_proactive_title_update
        (modify_title_sequence
          { initState 2 [] with default_title := [100], last_stats := [99] }
          5 ⟨48, true⟩ [] [115]).2 7).1 =
      some ([27, 93, 48, 59] ++ ([100] ++ sep ++ [99]) ++ [7]) := by
  have h := empty_payload_interception
    { initState 2 [] with default_title := [100], last_stats := [99] }
    5 7 ⟨48, true⟩ [115]
  exact ⟨fun _ => trivial, h.1,
    h.2 (by decide) (by decide) (by norm_num [TITLE_SUPPRESSION_DURATION, initState])
      (by norm_num [TITLE_UPDATE_INTERVAL, initState])⟩

/-! ## C7: streams without title sequences pass through unchanged -/

theorem subTitlePattern_nil (pat : TitlePattern) (now : Rat) (stats_text : List Nat)
    (st : TState) : subTitlePattern pat now stats_text st [] = ([], st) := by
  rw [subTitlePattern]

theorem subTitlePattern_cons_none (pat : TitlePattern) (now : Rat)
    (stats_text : List Nat) (st : TState) (b : Nat) (rest : List Nat)
    (h : matchTitleSeq pat (b :: rest) = none) :
    subTitlePattern pat now stats_text st (b :: rest) =
      (b :: (subTitlePattern pat now stats_text st rest).1,
       (subTitlePattern pat now stats_text st rest).2) := by
  rw [subTitlePattern.eq_def]
  split
  · next heq => exact absurd heq (by simp)
  · next b2 rest2 heq =>
      injection heq with h1 h2
      subst h1
      subst h2
      split
      · next pr heq2 => rw [h] at heq2; cases heq2
      · rfl

theorem subTitlePattern_cons_some (pat : TitlePattern) (now : Rat)
    (stats_text : List Nat) (st : TState) (b : Nat) (rest : List Nat)
    (pr : List Nat × List Nat) (h : matchTitleSeq pat (b :: rest) = some pr) :
    subTitlePattern pat now stats_text st (b :: rest) =
      ((modify_title_sequence st now pat pr.1 stats_text).1 ++
        (subTitlePattern pat now stats_text
          (modify_title_sequence st now pat pr.1 stats_text).2 pr.2).1,
       (subTitlePattern pat now stats_text
          (modify_title_sequence st now pat pr.1 stats_text).2 pr.2).2) := by
  rw [subTitlePattern.eq_def]
  split
  · next heq => exact absurd heq (by simp)
  · next b2 rest2 heq =>
      injection heq with h1 h2
      subst h1
      subst h2
      split
      · next pr2 heq2 =>
          rw [h] at heq2
          injection heq2 with h3
          subst h3
          rfl
      · next heq2 => rw [h] at heq2; cases heq2

/-- Does any of the five patterns match at the head of the stream? -/
def matchesAnyAt (s : List Nat) : Bool :=
  TITLE_PATTERNS.any fun pat => (matchTitleSeq pat s).isSome

/-- No pattern of Config.TITLE_PATTERNS matches at any position. -/
def noTitleSeq : List Nat → Bool
  | [] => true
  | b :: rest => !matchesAnyAt (b :: rest) && noTitleSeq rest

theorem subTitlePattern_id (pat : TitlePattern) (now : Rat) (stats_text : List Nat)
    (hpat : pat ∈ TITLE_PATTERNS) (data : List Nat) (h : noTitleSeq data = true) :
    ∀ st : TState, subTitlePattern pat now stats_text st data = (data, st) := by
  induction data with
  | nil => intro st; exact subTitlePattern_nil pat now stats_text st
  | cons b rest ih =>
    intro st
    rw [noTitleSeq, Bool.and_eq_true, Bool.not_eq_true'] at h
    have hnone : matchTitleSeq pat (b :: rest) = none := by
      rcases h2 : matchTitleSeq pat (b :: rest) with _ | pr
      · rfl
      · exfalso
        have : matchesAnyAt (b :: rest) = true := by
          rw [matchesAnyAt, List.any_eq_true]
          exact ⟨pat, hpat, by rw [h2]; rfl⟩
        rw [this] at h
        exact Bool.noConfusion h.1
    rw [subTitlePattern_cons_none pat now stats_text st b rest hnone, ih h.2 st]

/-- C7: on a byte stream containing no occurrence of any of the five
recognized title escape-sequence shapes, process_output returns the stream
unchanged (and leaves the session state untouched). -/
theorem process_output_id (st : TState) (now : Rat) (data stats_text : List Nat)
    (h : noTitleSeq data = true) :
    process_output st now data stats_text = (data, st) := by
  rw [process_output]
  have h0 := subTitlePattern_id ⟨48, true⟩ now stats_text (by decide) data h
  have h2 := subTitlePattern_id ⟨50, true⟩ now stats_text (by decide) data h
  have h1 := subTitlePattern_id ⟨49, true⟩ now stats_text (by decide) data h
  have h0e := subTitlePattern_id ⟨48, false⟩ now stats_text (by decide) data h
  have h2e := subTitlePattern_id ⟨50, false⟩ now stats_text (by decide) data h
  simp only [TITLE_PATTERNS, List.foldl_cons, List.foldl_nil]
  rw [h0 st, h2 st, h1 st, h0e st, h2e st]

/-- Witness for C7 on a concrete stream (hello plus a lone ESC). -/
theorem process_output_id_witness :
    process_output (initState 2 []) 0 [104, 101, 108, 108, 111, 27] [115] =
      ([104, 101, 108, 108, 111, 27], initState 2 []) :=
  process_output_id (initState 2 []) 0 [104, 101, 108, 108, 111, 27] [115] (by decide)

/-! ## C9: command classification (Config command sets,
Toptle.is_likely_interactive) -/

/-- Config.INTERACTIVE_COMMANDS, each name as its list of code points. -/
def INTERACTIVE_COMMANDS : List (List Nat) :=
  [[118, 105, 109], [118, 105], [110, 97, 110, 111], [101, 109, 97, 99, 115],
   [104, 116, 111, 112], [116, 111, 112], [98, 116, 111, 112], [97, 116, 111, 112],
   [108, 101, 115, 115], [109, 111, 114, 101], [109, 97, 110],
   [116, 109, 117, 120], [115, 99, 114, 101, 101, 110],
   [98, 97, 115, 104], [115, 104], [122, 115, 104], [102, 105, 115, 104],
   [112, 121, 116, 104, 111, 110], [112, 121, 116, 104, 111, 110, 51],
   [105, 112, 121, 116, 104, 111, 110],
   [110, 111, 100, 101], [105, 114, 98], [103, 104, 99, 105]]

/-- Config.NON_INTERACTIVE_COMMANDS, each name as its list of code points. -/
def NON_INTERACTIVE_COMMANDS : List (List Nat) :=
  [[115, 108, 101, 101, 112], [101, 99, 104, 111], [99, 97, 116],
   [103, 114, 101, 112], [102, 105, 110, 100], [115, 111, 114, 116],
   [109, 97, 107, 101], [103, 99, 99], [99, 108, 97, 110, 103],
   [99, 97, 114, 103, 111], [110, 112, 109], [112, 105, 112],
   [103, 105, 116], [99, 117, 114, 108], [119, 103, 101, 116],
   [116, 97, 114], [103, 122, 105, 112]]

/-- os.path.basename on a POSIX path: the characters after the last
slash (47). -/
def basename (s : List Nat) : List Nat :=
  s.foldl (fun acc c => if c = 47 then [] else acc ++ [c]) []

/-- Toptle.is_likely_interactive: empty commands are not interactive; the
base name of the first argument is looked up first in the non-interactive
set, then in the interactive set; unknown commands default to
interactive. -/
def is_likely_interactive (command : List (List Nat)) : Bool :=
  match command with
  | [] => false
  | c0 :: _ =>
    let cmd_name := basename c0
    if cmd_name ∈ NON_INTERACTIVE_COMMANDS then false
    else if cmd_name ∈ INTERACTIVE_COMMANDS then true
    else true

/-- C9: sleep 5 is classified non-interactive, vim interactive, and any
non-empty command whose base name is in neither fixed set is classified
interactive. -/
theorem classify_examples :
    is_likely_interactive [[115, 108, 101, 101, 112], [53]] = false ∧
    is_likely_interactive [[118, 105, 109]] = true ∧
    ∀ c0 rest, basename c0 ∉ NON_INTERACTIVE_COMMANDS →
      basename c0 ∉ INTERACTIVE_COMMANDS →
      is_likely_interactive (c0 :: rest) = true := by
  refine ⟨by decide, by decide, ?_⟩
  intro c0 rest h1 h2
  simp [is_likely_interactive, h1, h2]

/-- Witness for C9 at the unknown command some-unknown-tool. -/
theorem classify_examples_witness :
    is_likely_interactive
      [[115, 111, 109, 101, 45, 117, 110, 107, 110, 111, 119, 110, 45,
        116, 111, 111, 108]] = true := by
  have h := classify_examples.2.2
    [115, 111, 109, 101, 45, 117, 110, 107, 110, 111, 119, 110, 45, 116, 111, 111, 108]
    [] (by decide) (by decide)
  exact h

/-! ## C8: terminal size query fallback (Toptle.get_terminal_size) -/

/-- Is the code point a decimal digit? -/
def isDigit (c : Nat) : Bool := 48 ≤ c && c ≤ 57

/-- Characters stripped by Python int() around a numeric literal
(space, tab, line feed, carriage return, vertical tab, form feed). -/
def isPySpace (c : Nat) : Bool :=
  c = 32 || c = 9 || c = 10 || c = 13 || c = 11 || c = 12

/-- Accumulate decimal digits allowing single underscores between digits,
as Python int() does after the sign. -/
def digitsValAux : Nat → List Nat → Option Nat
  | acc, [] => some acc
  | acc, c :: rest =>
    if isDigit c then digitsValAux (acc * 10 + (c - 48)) rest
    else if c = 95 then
      match rest with
      | c2 :: rest2 =>
        if isDigit c2 then digitsValAux (acc * 10 + (c2 - 48)) rest2 else none
      | [] => none
    else none

/-- Parse a non-empty digit run (underscores allowed between digits). -/
def digitsVal : List Nat → Option Nat
  | [] => none
  | c :: rest => if isDigit c then digitsValAux (c - 48) rest else none

/-- Python int() applied to a string: strip surrounding whitespace, allow
one optional sign, then a digit run; none models a raised ValueError. -/
def pyInt (s : List Nat) : Option Int :=
  let t := ((s.dropWhile isPySpace).reverse.dropWhile isPySpace).reverse
  match t with
  | 43 :: rest => (digitsVal rest).map (fun n => (n : Int))
  | 45 :: rest => (digitsVal rest).map (fun n => -(n : Int))
  | t2 => (digitsVal t2).map (fun n => (n : Int))

/-- The row or column value obtained from one environment entry: the
default when the variable is absent, otherwise the parse of its value. -/
def envDim (entry : Option (List Nat)) (default : Int) : Option Int :=
  match entry with
  | none => some default
  | some s => pyInt s

/-- Toptle.get_terminal_size, with the outcome of the ioctl winsize query
and the LINES and COLUMNS environment entries as explicit inputs.  A
successful ioctl with a zero row or column count yields (24, 80); a raised
ioctl falls back to the environment values (defaults 24 and 80 when
absent), and to (24, 80) when either present value fails to parse. -/
def get_terminal_size (ioctl : Option (Nat × Nat))
    (linesEnv colsEnv : Option (List Nat)) : Int × Int :=
  match ioctl with
  | some rc => if rc.1 ≠ 0 ∧ rc.2 ≠ 0 then ((rc.1 : Int), (rc.2 : Int)) else (24, 80)
  | none =>
    match envDim linesEnv 24, envDim colsEnv 80 with
    | some r, some c => (r, c)
    | _, _ => (24, 80)

/-- C8: get_terminal_size is a total function; on ioctl failure it returns
the environment-provided values whenever both parse, and the fixed default
(24, 80) whenever either of the present environment values fails to
parse. -/
theorem get_terminal_size_fallback :
    (∀ linesEnv colsEnv r c,
      envDim linesEnv 24 = some r → envDim colsEnv 80 = some c →
      get_terminal_size none linesEnv colsEnv = (r, c)) ∧
    (∀ linesEnv colsEnv,
      (∃ s, linesEnv = some s ∧ pyInt s = none) ∨
      (∃ s, colsEnv = some s ∧ pyInt s = none) →
      get_terminal_size none linesEnv colsEnv = (24, 80)) := by
  constructor
  · intro linesEnv colsEnv r c hr hc
    simp [get_terminal_size, hr, hc]
  · intro linesEnv colsEnv h
    rcases h with ⟨s, hs, hp⟩ | ⟨s, hs, hp⟩
    · subst hs
      simp [get_terminal_size, envDim, hp]
    · subst hs
      rcases h2 : envDim linesEnv 24 with _ | r <;>
        simp [get_terminal_size, envDim, hp, h2]

/-- Witness for C8: LINES set to abc is unparsable, and both branches at
concrete values. -/
theorem get_terminal_size_fallback_witness :
    get_terminal_size none (some [51, 48]) none = (30, 80) ∧
    get_terminal_size none (some [97, 98, 99]) (some [56, 48]) = (24, 80) := by
  constructor
  · exact get_terminal_size_fallback.1 (some [51, 48]) none 30 80 (by decide) (by decide)
  · exact get_terminal_size_fallback.2 (some [97, 98, 99]) (some [56, 48])
      (Or.inl ⟨[97, 98, 99], rfl, by decide⟩)

/-! ## C2: suppression window and minimum push interval -/

/-- An event acting on the shared session state during an execution: a
title interception performed by the rewriter (modify_title_sequence) or a
proactive push attempt performed by the sampler. -/
inductive SessionEvent where
  | intercept (payload : List Nat) (stats_text : List Nat)
  | pushAttempt

/-- A timestamped session event. -/
structure TimedEvent where
  t : Rat
  ev : SessionEvent

/-- Apply one timed event to the state; the second component is the
timestamp of the proactive push if one fired. -/
def stepEvent (st : TState) : TimedEvent → TState × Option Rat
  | ⟨t, SessionEvent.intercept payload stats_text⟩ =>
    ((modify_title_sequence st t ⟨48, true⟩ payload stats_text).2, none)
  | ⟨t, SessionEvent.pushAttempt⟩ =>
    let os := send_proactive_title_update st t
    (os.2, if os.1.isSome then some t else none)

/-- Run a trace of events, collecting the timestamps of the proactive
pushes that actually fired. -/
def runTrace (st : TState) : List TimedEvent → TState × List Rat
  | [] => (st, [])
  | e :: es =>
    let so := stepEvent st e
    let r := runTrace so.1 es
    (r.1, so.2.toList ++ r.2)

theorem send_proactive_fired (st : TState) (now : Rat)
    (h : (send_proactive_title_update st now).1.isSome = true) :
    TITLE_SUPPRESSION_DURATION ≤ now - st.last_title_interception ∧
    TITLE_UPDATE_INTERVAL ≤ now - st.last_title_update ∧
    (send_proactive_title_update st now).2 = { st with last_title_update := now } := by
  rw [send_proactive_title_update] at h ⊢
  split_ifs at h ⊢ <;>
    first
      | exact ⟨by linarith, by assumption, by simp⟩
      | simp at h

theorem send_proactive_skipped (st : TState) (now : Rat)
    (h : (send_proactive_title_update st now).1.isSome = false) :
    (send_proactive_title_update st now).2 = st := by
  rw [send_proactive_title_update] at h ⊢
  split_ifs at h ⊢ <;> simp_all

theorem modify_preserves_update_time (st : TState) (now : Rat)
    (pat : TitlePattern) (payload stats_text : List Nat) :
    (modify_title_sequence st now pat payload stats_text).2.last_title_update =
      st.last_title_update ∧
    (modify_title_sequence st now pat payload stats_text).2.last_title_interception =
      now := by
  simp [modify_title_sequence]

/-- Fired pushes are spaced by at least the minimum push interval, starting
from the last push time recorded in the state. -/
theorem runTrace_pushes_spaced (es : List TimedEvent) :
    ∀ st : TState, List.Chain' (fun a b => a + TITLE_UPDATE_INTERVAL ≤ b)
      (st.last_title_update :: (runTrace st es).2) := by
  induction es with
  | nil => intro st; simp [runTrace]
  | cons e es ih =>
    intro st
    rw [runTrace]
    match e with
    | ⟨t, SessionEvent.intercept payload stats_text⟩ =>
      have h := ih (stepEvent st ⟨t, SessionEvent.intercept payload stats_text⟩).1
      simp only [stepEvent] at h ⊢
      simp only [Option.toList_none, List.nil_append]
      rw [(modify_preserves_update_time st t ⟨48, true⟩ payload stats_text).1] at h
      exact h
    | ⟨t, SessionEvent.pushAttempt⟩ =>
      simp only [stepEvent]
      cases hf : (send_proactive_title_update st t).1.isSome with
      | false =>
        have h := ih (send_proactive_title_update st t).2
        rw [send_proactive_skipped st t hf] at h
        simp only [hf, Bool.false_eq_true, if_false, Option.toList_none, List.nil_append]
        rw [send_proactive_skipped st t hf]
        exact h
      | true =>
        obtain ⟨hsup, hupd, hst⟩ := send_proactive_fired st t hf
        simp only [hf, if_true, Option.toList_some, List.cons_append,
          List.nil_append, List.chain'_cons]
        rw [hst]
        have h2 := ih ({ st with last_title_update := t } : TState)
        refine ⟨by linarith, ?_⟩
        simpa using h2

/-- Every fired push carries the timestamp of some event of the trace. -/
theorem runTrace_pushes_are_event_times (es : List TimedEvent) :
    ∀ st : TState, ∀ u ∈ (runTrace st es).2, ∃ e ∈ es, u = e.t := by
  induction es with
  | nil => intro st u hu; simp [runTrace] at hu
  | cons e es ih =>
    intro st u hu
    rw [runTrace] at hu
    rcases List.mem_append.mp hu with h | h
    · match e, h with
      | ⟨t, SessionEvent.intercept payload stats_text⟩, h =>
        simp only [stepEvent] at h
        simp at h
      | ⟨t, SessionEvent.pushAttempt⟩, h =>
        simp only [stepEvent] at h
        cases hf : (send_proactive_title_update st t).1.isSome with
        | false => simp [hf] at h
        | true =>
          simp only [hf, if_true, Option.toList_some, List.mem_singleton] at h
          exact ⟨⟨t, SessionEvent.pushAttempt⟩, List.mem_cons_self _ _, h⟩
    · obtain ⟨e2, he2, hu2⟩ := ih _ u h
      exact ⟨e2, List.mem_cons_of_mem e he2, hu2⟩

/-- After an interception at or before time t, every fired push of a trace
whose events all carry timestamps at least t lies at or beyond the end of
the suppression window. -/
theorem runTrace_pushes_after_interception (es : List TimedEvent) (t : Rat) :
    ∀ st : TState, t ≤ st.last_title_interception →
    (∀ e ∈ es, t ≤ e.t) →
    ∀ u ∈ (runTrace st es).2, t + TITLE_SUPPRESSION_DURATION ≤ u := by
  induction es with
  | nil => intro st _ _ u hu; simp [runTrace] at hu
  | cons e es ih =>
    intro st hint htimes u hu
    rw [runTrace] at hu
    rcases List.mem_append.mp hu with h | h
    · match e, h with
      | ⟨te, SessionEvent.intercept payload stats_text⟩, h =>
        simp only [stepEvent] at h
        simp at h
      | ⟨te, SessionEvent.pushAttempt⟩, h =>
        simp only [stepEvent] at h
        cases hf : (send_proactive_title_update st te).1.isSome with
        | false => simp [hf] at h
        | true =>
          simp only [hf, if_true, Option.toList_some, List.mem_singleton] at h
          obtain ⟨hsup, _, _⟩ := send_proactive_fired st te hf
          rw [h]
          linarith
    · match e with
      | ⟨te, SessionEvent.intercept payload stats_text⟩ =>
        refine ih _ ?_ (fun x hx => htimes x (List.mem_cons_of_mem _ hx)) u h
        simp only [stepEvent]
        rw [(modify_preserves_update_time st te ⟨48, true⟩ payload stats_text).2]
        exact htimes _ (List.mem_cons_self _ _)
      | ⟨te, SessionEvent.pushAttempt⟩ =>
        refine ih _ ?_ (fun x hx => htimes x (List.mem_cons_of_mem _ hx)) u h
        simp only [stepEvent]
        cases hf : (send_proactive_title_update st te).1.isSome with
        | false => rw [send_proactive_skipped st te hf]; exact hint
        | true => rw [(send_proactive_fired st te hf).2.2]; exact hint

/-- runTrace distributes over list append. -/
theorem runTrace_append (es1 es2 : List TimedEvent) :
    ∀ st : TState, runTrace st (es1 ++ es2) =
      ((runTrace (runTrace st es1).1 es2).1,
       (runTrace st es1).2 ++ (runTrace (runTrace st es1).1 es2).2) := by
  induction es1 with
  | nil => intro st; simp [runTrace]
  | cons e es1 ih =>
    intro st
    simp only [List.cons_append, runTrace, List.append_eq, ih (stepEvent st e).1,
      List.append_assoc]

/-- C2: in any execution trace with nondecreasing timestamps in which the
rewriter records an interception at time t, no proactive push fires in the
open interval between t and t plus the suppression duration, and
consecutive fired pushes are at least the minimum push interval apart. -/
theorem no_push_in_suppression_window (st0 : TState) (es1 es2 : List TimedEvent)
    (t : Rat) (payload stats_text : List Nat)
    (hsorted : List.Pairwise (fun a b => a.t ≤ b.t)
      (es1 ++ (⟨t, SessionEvent.intercept payload stats_text⟩ : TimedEvent) :: es2)) :
    (∀ u ∈ (runTrace st0
        (es1 ++ (⟨t, SessionEvent.intercept payload stats_text⟩ : TimedEvent) :: es2)).2,
      u ≤ t ∨ t + TITLE_SUPPRESSION_DURATION ≤ u) ∧
    List.Chain' (fun a b => a + TITLE_UPDATE_INTERVAL ≤ b)
      (runTrace st0
        (es1 ++ (⟨t, SessionEvent.intercept payload stats_text⟩ : TimedEvent) :: es2)).2 := by
  rw [List.pairwise_append] at hsorted
  obtain ⟨hp1, hp2, hcross⟩ := hsorted
  constructor
  · intro u hu
    rw [runTrace_append] at hu
    rcases List.mem_append.mp hu with h | h
    · obtain ⟨e, he, hue⟩ := runTrace_pushes_are_event_times es1 st0 u h
      exact Or.inl (hue ▸ hcross e he _ (List.mem_cons_self _ _))
    · set st1 := (runTrace st0 es1).1
      rw [runTrace] at h
      rcases List.mem_append.mp h with h2 | h2
      · simp only [stepEvent] at h2
        simp at h2
      · right
        refine runTrace_pushes_after_interception es2 t _ ?_ ?_ u h2
        · simp only [stepEvent]
          rw [(modify_preserves_update_time st1 t ⟨48, true⟩ payload stats_text).2]
        · intro x hx
          exact (List.pairwise_cons.mp hp2).1 x hx
  · have h := runTrace_pushes_spaced
      (es1 ++ (⟨t, SessionEvent.intercept payload stats_text⟩ : TimedEvent) :: es2) st0
    exact (List.chain'_cons'.mp h).2

/-- Witness for C2 on a concrete trace: an interception at time 10 followed
by push attempts at 10.4 and 11.5. -/
theorem no_push_in_suppression_window_witness :
    (∀ u ∈ (runTrace (initState 2 [])
        ([] ++ (⟨10, SessionEvent.intercept [77] [115]⟩ : TimedEvent) ::
          [⟨52/5, SessionEvent.pushAttempt⟩,
           ⟨23/2, SessionEvent.pushAttempt⟩])).2,
      u ≤ 10 ∨ 10 + TITLE_SUPPRESSION_DURATION ≤ u) ∧
    List.Chain' (fun a b => a + TITLE_UPDATE_INTERVAL ≤ b)
      (runTrace (initState 2 [])
        ([] ++ (⟨10, SessionEvent.intercept [77] [115]⟩ : TimedEvent) ::
          [⟨52/5, SessionEvent.pushAttempt⟩,
           ⟨23/2, SessionEvent.pushAttempt⟩])).2 :=
  no_push_in_suppression_window (initState 2 []) []
    [⟨52/5, SessionEvent.pushAttempt⟩, ⟨23/2, SessionEvent.pushAttempt⟩]
    10 [77] [115] (by norm_num)

/-! ## C5: one iteration of the PTY relay Running loop
(the main I/O loop of Toptle._run_with_pty) -/

/-- Result of one os.read call: a chunk of bytes (empty meaning end of
stream) or a raised OSError. -/
inductive ReadResult where
  | chunk (bs : List Nat)
  | oserror
deriving DecidableEq

/-- The observable inputs of one iteration of the relay loop: which
descriptors select reported ready, the outcome of the read on each side,
and whether process.poll() reports that the child exited. -/
structure IterInput where
  stdinReady : Bool
  masterReady : Bool
  stdinRead : ReadResult
  masterRead : ReadResult
  writeMasterOk : Bool
  writeStdoutOk : Bool
  pollExited : Bool

/-- The effects of one iteration: the bytes written to the PTY, the bytes
written to the real terminal, whether the loop breaks, and the updated
session state. -/
structure IterEffect where
  wroteToMaster : Option (List Nat)
  wroteToStdout : Option (List Nat)
  breaks : Bool
  st : TState

/-- The output half of a relay iteration, entered when the input branch did
not break: on a ready master, an OSError or an empty read breaks the loop,
and a non-empty chunk is rewritten through process_output with the current
stats and written to the real terminal (a failing terminal write raises
OSError inside the same try and breaks); when neither descriptor was ready
and the child has exited, the loop breaks. -/
def relay_output_phase (st : TState) (inp : IterInput) (now : Rat)
    (wroteIn : Option (List Nat)) : IterEffect :=
  if inp.masterReady then
    match inp.masterRead with
    | ReadResult.oserror => ⟨wroteIn, none, true, st⟩
    | ReadResult.chunk [] => ⟨wroteIn, none, true, st⟩
    | ReadResult.chunk bs =>
      let po := process_output st now bs st.last_stats
      ⟨wroteIn, some po.1, inp.writeStdoutOk = false, po.2⟩
  else if inp.stdinReady = false ∧ inp.pollExited = true then ⟨wroteIn, none, true, st⟩
  else ⟨wroteIn, none, false, st⟩

/-- One iteration of the main I/O loop of Toptle._run_with_pty at time now:
if the real terminal input is ready, an OSError on the read breaks the
loop, a non-empty chunk is written verbatim to the PTY (a failing PTY
write raises OSError inside the same try and breaks), and an empty chunk
writes nothing; then the output half runs. -/
def relay_iteration (st : TState) (inp : IterInput) (now : Rat) : IterEffect :=
  if inp.stdinReady then
    match inp.stdinRead with
    | ReadResult.oserror => ⟨none, none, true, st⟩
    | ReadResult.chunk bs =>
      if bs ≠ [] then
        if inp.writeMasterOk then relay_output_phase st inp now (some bs)
        else ⟨some bs, none, true, st⟩
      else relay_output_phase st inp now none
  else relay_output_phase st inp now none

/-- Counterexample to C5 as stated: with the real terminal input ready and
the read returning zero bytes (and nothing else happening), the iteration
does not break the loop. -/
theorem relay_stdin_eof_no_break_counterexample :
    (relay_iteration (initState 2 [])
      ⟨true, false, ReadResult.chunk [], ReadResult.chunk [], true, true, false⟩
      0).breaks = false := by
  decide

/-- C5 (amended): in the Running state with the real terminal input ready,
a read that raises an error breaks the loop with nothing written; a read
returning zero bytes writes nothing to the PTY and the iteration proceeds
to the output half without breaking on the input branch; a read returning
a non-empty chunk writes exactly that chunk verbatim to the PTY. -/
theorem relay_stdin_behavior (st : TState) (inp : IterInput) (now : Rat)
    (h : inp.stdinReady = true) :
    (inp.stdinRead = ReadResult.oserror →
      relay_iteration st inp now = ⟨none, none, true, st⟩) ∧
    (inp.stdinRead = ReadResult.chunk [] →
      relay_iteration st inp now = relay_output_phase st inp now none) ∧
    (∀ bs, bs ≠ [] → inp.stdinRead = ReadResult.chunk bs →
      inp.writeMasterOk = true →
      relay_iteration st inp now = relay_output_phase st inp now (some bs) ∧
      (relay_iteration st inp now).wroteToMaster = some bs) := by
  refine ⟨?_, ?_, ?_⟩
  · intro he
    simp [relay_iteration, h, he]
  · intro he
    simp [relay_iteration, h, he]
  · intro bs hbs he hw
    constructor
    · simp [relay_iteration, h, he, hbs, hw]
    · simp only [relay_iteration, h, if_true, he, hbs, hw, if_pos]
      by_cases hm : inp.masterReady
      · cases hmr : inp.masterRead with
        | oserror => simp [relay_output_phase, hm, hmr, hbs]
        | chunk bs2 =>
          rcases bs2 with _ | ⟨b2, bs2⟩ <;> simp [relay_output_phase, hm, hmr, hbs]
      · by_cases hp : inp.pollExited <;> simp [relay_output_phase, hm, hp, h, hbs]

/-- Witness for the amended C5 at a concrete ready input. -/
theorem relay_stdin_behavior_witness :
    relay_iteration (initState 2 [])
      ⟨true, false, ReadResult.chunk [104, 105], ReadResult.chunk [], true, true,
        false⟩ 0 =
      relay_output_phase (initState 2 [])
        ⟨true, false, ReadResult.chunk [104, 105], ReadResult.chunk [], true, true,
          false⟩ 0 (some [104, 105]) ∧
    (relay_iteration (initState 2 [])
      ⟨true, false, ReadResult.chunk [104, 105], ReadResult.chunk [], true, true,
        false⟩ 0).wroteToMaster = some [104, 105] :=
  (relay_stdin_behavior (initState 2 [])
    ⟨true, false, ReadResult.chunk [104, 105], ReadResult.chunk [], true, true,
      false⟩ 0 rfl).2.2 [104, 105] (by decide) rfl rfl

/-! ## C6: sampler error policy (Toptle.get_process_tree_stats,
Toptle.stats_updater) -/

/-- C6: a per-process provider error for an individual descendant only
removes that process from the cpu and memory aggregate (the tick itself
completes and the sampler loop continues), whereas a provider error on the
root query terminates the sampler loop. -/
theorem sampler_error_policy :
    (∀ (tick : ProviderTick) (root d : Nat) (l1 l2 : List Nat) (st : TState) (now : Rat),
      tick.childrenQ = some (l1 ++ d :: l2) →
      tick.perProc d = none →
      tick.isRunningQ = some true →
      st.running = true →
      (get_process_tree_stats tick root).cpu_percent =
        (get_process_tree_stats { tick with childrenQ := some (l1 ++ l2) }
          root).cpu_percent ∧
      (get_process_tree_stats tick root).memory_mb =
        (get_process_tree_stats { tick with childrenQ := some (l1 ++ l2) }
          root).memory_mb ∧
      (stats_updater_tick st tick root now).2.1 = true) ∧
    (∀ (tick : ProviderTick) (root : Nat) (st : TState) (now : Rat),
      tick.isRunningQ = none →
      (stats_updater_tick st tick root now).2.1 = false) := by
  constructor
  · intro tick root d l1 l2 st now hch hd hrun hstrun
    refine ⟨?_, ?_, ?_⟩
    · simp [get_process_tree_stats, hch, List.foldl_append, hd]
    · simp [get_process_tree_stats, hch, List.foldl_append, hd]
    · simp [stats_updater_tick, hrun, hstrun]
  · intro tick root st now hnone
    by_cases hr : st.running <;> simp [stats_updater_tick, hr, hnone]

/-- Witness for C6: a concrete tick whose provider raises for descendant 5
and a concrete tick whose root query raises. -/
theorem sampler_error_policy_witness :
    ((get_process_tree_stats
        ⟨some true, some [4, 5, 6], fun p => if p = 5 then none else some (1, 1048576)⟩
        1).cpu_percent =
      (get_process_tree_stats
        ⟨some true, some [4, 6], fun p => if p = 5 then none else some (1, 1048576)⟩
        1).cpu_percent ∧
     (stats_updater_tick (initState 2 [])
        ⟨some true, some [4, 5, 6], fun p => if p = 5 then none else some (1, 1048576)⟩
        1 0).2.1 = true) ∧
    (stats_updater_tick (initState 2 [])
      ⟨none, some [4, 6], fun _ => some (1, 1048576)⟩ 1 0).2.1 = false := by
  have h1 := sampler_error_policy.1
    ⟨some true, some [4, 5, 6], fun p => if p = 5 then none else some (1, 1048576)⟩
    1 5 [4] [6] (initState 2 []) 0 rfl (by norm_num) rfl rfl
  have h2 := sampler_error_policy.2
    ⟨none, some [4, 6], fun _ => some (1, 1048576)⟩ 1 (initState 2 []) 0 rfl
  exact ⟨⟨h1.1, h1.2.2⟩, h2⟩

/-! ## C3 and C4: cleanup on every exit path and exit-code mirroring
(Toptle._cleanup_resources, Toptle._run_with_pty, Toptle._run_direct,
main) -/

/-- An observable shutdown side effect on the terminal or process state. -/
inductive Effect where
  | resetSigwinch
  | restoreTermios
  | closeMaster
  | writeReset
deriving DecidableEq

/-- Toptle._cleanup_resources: clear the running flag, reset the SIGWINCH
handler when asked, restore the terminal mode when raw mode had saved one,
close the PTY master descriptor when one was passed, and write the
terminal-title reset sequence; savedTermios models original_termios being
set and masterFd models the optional descriptor argument. -/
def cleanup_resources (st : TState) (savedTermios masterFd resetSignals : Bool) :
    TState × List Effect :=
  ({ st with running := false },
    (if resetSignals then [Effect.resetSigwinch] else []) ++
    (if savedTermios then [Effect.restoreTermios] else []) ++
    (if masterFd then [Effect.closeMaster] else []) ++
    [Effect.writeReset])

/-- How the body of Toptle._run_with_pty reaches the point where the child
exit status is collected: the relay loop ends by its condition or a break,
a KeyboardInterrupt inside the loop is caught by the surrounding except
and execution falls through to the wait, or some other exception escapes
the body. -/
inductive LoopEnd where
  | normal
  | keyboardInterrupt
  | uncaught
deriving DecidableEq

/-- The outcome of a Python call as seen by its caller: a returned value, a
propagating KeyboardInterrupt, or another propagating exception. -/
inductive PyResult (α : Type) where
  | ok (a : α)
  | keyboardInterrupt
  | exc
deriving DecidableEq

/-- Toptle._run_with_pty, abstracted over how the relay loop ended and what
the final process.wait() produced: the loop ends or a KeyboardInterrupt
inside it is caught and ignored, then the wait result is returned; any
uncaught body exception propagates instead; in all cases the finally
clause runs _cleanup_resources with the master descriptor and signal
reset. -/
def run_with_pty (loopEnd : LoopEnd) (waitOutcome : PyResult Int) (st : TState)
    (savedTermios : Bool) : PyResult Int × TState × List Effect :=
  let cl := cleanup_resources st savedTermios true true
  match loopEnd with
  | LoopEnd.uncaught => (PyResult.exc, cl.1, cl.2)
  | _ => (waitOutcome, cl.1, cl.2)

/-- Toptle._run_direct, abstracted over the outcome of the synchronous
process.wait(): the wait result (or a KeyboardInterrupt raised during it)
propagates, and the finally clause runs _cleanup_resources with no
descriptor and no signal reset; direct mode never enters raw mode, so no
saved terminal attributes exist. -/
def run_direct (waitOutcome : PyResult Int) (st : TState) :
    PyResult Int × TState × List Effect :=
  let cl := cleanup_resources st false false false
  (waitOutcome, cl.1, cl.2)

/-- The exit-code dispatch at the bottom of main: the value returned by
run_command on normal completion, 130 on a propagating KeyboardInterrupt,
1 on any other exception. -/
def main_exit_code (r : PyResult Int) : Int :=
  match r with
  | PyResult.ok n => n
  | PyResult.keyboardInterrupt => 130
  | PyResult.exc => 1

/-- C4: when the monitored child exits normally with status n and the run
is not interrupted, the program exit code is n in both execution modes;
when a KeyboardInterrupt reaches main before a child exit status was
collected, the program exit code is 130. -/
theorem exit_code_mirrors_child (st : TState) (savedTermios : Bool) (n : Int)
    (loopEnd : LoopEnd) (hle : loopEnd ≠ LoopEnd.uncaught) :
    main_exit_code (run_with_pty loopEnd (PyResult.ok n) st savedTermios).1 = n ∧
    main_exit_code (run_direct (PyResult.ok n) st).1 = n ∧
    main_exit_code
      (run_with_pty loopEnd PyResult.keyboardInterrupt st savedTermios).1 = 130 ∧
    main_exit_code (run_direct PyResult.keyboardInterrupt st).1 = 130 := by
  cases loopEnd with
  | uncaught => exact absurd rfl hle
  | normal => exact ⟨rfl, rfl, rfl, rfl⟩
  | keyboardInterrupt => exact ⟨rfl, rfl, rfl, rfl⟩

/-- Witness for C4 at child status 7 with a normally ending loop. -/
theorem exit_code_mirrors_child_witness :
    main_exit_code
      (run_with_pty LoopEnd.normal (PyResult.ok 7) (initState 2 []) true).1 = 7 ∧
    main_exit_code (run_direct (PyResult.ok 7) (initState 2 [])).1 = 7 ∧
    main_exit_code
      (run_with_pty LoopEnd.normal PyResult.keyboardInterrupt (initState 2 [])
        true).1 = 130 ∧
    main_exit_code (run_direct PyResult.keyboardInterrupt (initState 2 [])).1 = 130 :=
  exit_code_mirrors_child (initState 2 []) true 7 LoopEnd.normal (by decide)

/-- C3: on every exit path of a session, in both execution modes (normal
completion, interruption, and any escaping exception alike), cleanup runs:
the terminal-title reset sequence is written exactly once, the saved
terminal mode (when one was captured) is restored, and the running flag is
cleared. -/
theorem cleanup_on_every_path (st : TState) (savedTermios : Bool)
    (loopEnd : LoopEnd) (waitOutcome : PyResult Int) :
    ((run_with_pty loopEnd waitOutcome st savedTermios).2.2.count Effect.writeReset = 1 ∧
     (savedTermios = true →
       Effect.restoreTermios ∈ (run_with_pty loopEnd waitOutcome st savedTermios).2.2) ∧
     (run_with_pty loopEnd waitOutcome st savedTermios).2.1.running = false) ∧
    ((run_direct waitOutcome st).2.2.count Effect.writeReset = 1 ∧
     (run_direct waitOutcome st).2.1.running = false) := by
  refine ⟨⟨?_, ?_, ?_⟩, ?_, ?_⟩
  · cases loopEnd <;> cases savedTermios <;>
      simp [run_with_pty, cleanup_resources]
  · intro hs
    subst hs
    cases loopEnd <;> simp [run_with_pty, cleanup_resources]
  · cases loopEnd <;> simp [run_with_pty, cleanup_resources]
  · simp [run_direct, cleanup_resources]
  · simp [run_direct, cleanup_resources]

/-- Witness for C3 at concrete outcomes (an uncaught body exception with a
saved terminal mode, and an interrupted direct wait). -/
theorem cleanup_on_every_path_witness :
    ((run_with_pty LoopEnd.uncaught PyResult.keyboardInterrupt (initState 2 [])
        true).2.2.count Effect.writeReset = 1 ∧
     Effect.restoreTermios ∈
       (run_with_pty LoopEnd.uncaught PyResult.keyboardInterrupt (initState 2 [])
         true).2.2 ∧
     (run_with_pty LoopEnd.uncaught PyResult.keyboardInterrupt (initState 2 [])
       true).2.1.running = false) ∧
    ((run_direct PyResult.keyboardInterrupt (initState 2 [])).2.2.count
        Effect.writeReset = 1 ∧
     (run_direct PyResult.keyboardInterrupt (initState 2 [])).2.1.running = false) := by
  have h := cleanup_on_every_path (initState 2 []) true LoopEnd.uncaught
    PyResult.keyboardInterrupt
  exact ⟨⟨h.1.1, h.1.2.1 rfl, h.1.2.2⟩, h.2⟩

end Toptle
